import Mathlib

/-!
Shallow embedding of the PDM (Price-Volume Derivatives Momentum) strategy
engine from `ml-service/pdm_strategy_engine.py`.

Numeric values are modelled over `ℚ`.  Where IEEE-754 special values matter
(NaN produced by `pandas.Series.diff` at index 0, NaN/±infinity produced by
divisions, and their sanitization via `replace`/`fillna`), a value is either
an `Option ℚ` (`none` = NaN) or an `FVal` (finite / +inf / -inf / NaN).
Data fetching (`yf.download`) and the wall clock (`datetime.now()`) are
modelled as explicit inputs; the rolling Pearson correlation used by
`detect_institutional_volume_participation` is real-valued (it involves
square roots), so it enters the embedding as an explicit oracle
`corr : ℕ → Option ℚ` (`none` = NaN); every theorem below quantifies over
every possible value of that oracle.
-/

/-- Model of an IEEE-754 double that may be finite, ±infinity or NaN. -/
inductive FVal where
  | fin (q : ℚ)
  | inf
  | ninf
  | nan
deriving DecidableEq

/-- Float strict less-than: any comparison involving NaN is false. -/
def fltF : FVal → FVal → Bool
  | FVal.fin a, FVal.fin b => decide (a < b)
  | FVal.fin _, FVal.inf => true
  | FVal.ninf, FVal.fin _ => true
  | FVal.ninf, FVal.inf => true
  | _, _ => false

/-- Float strict greater-than against a finite constant (NaN > c is false). -/
def fgtC : FVal → ℚ → Bool
  | FVal.fin a, c => decide (c < a)
  | FVal.inf, _ => true
  | _, _ => false

/-- Float division of a possibly-NaN numerator by a possibly-NaN denominator. -/
def fdivO : Option ℚ → Option ℚ → FVal
  | some a, some b =>
      if b = 0 then (if a = 0 then FVal.nan else if 0 < a then FVal.inf else FVal.ninf)
      else FVal.fin (a / b)
  | _, _ => FVal.nan

/-- Float division of two finite values (the `volume / rolling_mean` ratio). -/
def fdivQ (a b : ℚ) : FVal :=
  if b = 0 then (if a = 0 then FVal.nan else if 0 < a then FVal.inf else FVal.ninf)
  else FVal.fin (a / b)

/-- Float division of a float by a finite constant. -/
def fdivC : FVal → ℚ → FVal
  | FVal.fin a, c =>
      if c = 0 then (if a = 0 then FVal.nan else if 0 < a then FVal.inf else FVal.ninf)
      else FVal.fin (a / c)
  | FVal.inf, c => if c = 0 then FVal.nan else if 0 < c then FVal.inf else FVal.ninf
  | FVal.ninf, c => if c = 0 then FVal.nan else if 0 < c then FVal.ninf else FVal.inf
  | FVal.nan, _ => FVal.nan

/-- Float multiplication of a float by a finite constant. -/
def fmulQ : FVal → ℚ → FVal
  | FVal.fin a, c => FVal.fin (a * c)
  | FVal.inf, c => if 0 < c then FVal.inf else if c < 0 then FVal.ninf else FVal.nan
  | FVal.ninf, c => if 0 < c then FVal.ninf else if c < 0 then FVal.inf else FVal.nan
  | FVal.nan, _ => FVal.nan

/-- Float addition of a finite constant to a float. -/
def faddQ (c : ℚ) : FVal → FVal
  | FVal.fin a => FVal.fin (c + a)
  | FVal.inf => FVal.inf
  | FVal.ninf => FVal.ninf
  | FVal.nan => FVal.nan

/-- Python builtin `min(x, c)` on floats: keeps `x` unless `c < x`. -/
def fminC : FVal → ℚ → FVal
  | FVal.fin a, c => FVal.fin (min a c)
  | FVal.inf, c => FVal.fin c
  | FVal.ninf, _ => FVal.ninf
  | FVal.nan, _ => FVal.nan

/-- `pandas.Series.replace([np.inf, -np.inf], 0)` applied pointwise. -/
def replace_infinities : FVal → FVal
  | FVal.inf => FVal.fin 0
  | FVal.ninf => FVal.fin 0
  | x => x

/-- `pandas.Series.fillna(0)` applied pointwise. -/
def fillna0 : FVal → FVal
  | FVal.nan => FVal.fin 0
  | x => x

/-- Float greater-than between two possibly-NaN values (NaN compares false). -/
def ogtO : Option ℚ → Option ℚ → Bool
  | some a, some b => decide (b < a)
  | _, _ => false

/-- Float `x > 0` for a possibly-NaN value. -/
def ogt0 : Option ℚ → Bool
  | some a => decide (0 < a)
  | none => false

/-- Float `x < 0` for a possibly-NaN value. -/
def olt0 : Option ℚ → Bool
  | some a => decide (a < 0)
  | none => false

/-- Element `t` of a series (only queried in range by the engine). -/
def seriesAt (xs : List ℚ) (t : ℕ) : ℚ := xs.getD t 0

/-- `pandas.Series.diff()` at index `t`: NaN at `t = 0`, else one-bar difference. -/
def diffAt (xs : List ℚ) (t : ℕ) : Option ℚ :=
  if 1 ≤ t ∧ t < xs.length then some (seriesAt xs t - seriesAt xs (t - 1)) else none

/-- `diff()` of an already possibly-NaN series of length `n` (NaN propagates). -/
def odiffAt (f : ℕ → Option ℚ) (n t : ℕ) : Option ℚ :=
  if 1 ≤ t ∧ t < n then
    match f t, f (t - 1) with
    | some a, some b => some (a - b)
    | _, _ => none
  else none

/-- `calculate_price_velocity` at index `t`: `price_series.diff() / 1`. -/
def velocityAt (xs : List ℚ) (t : ℕ) : Option ℚ :=
  (diffAt xs t).map (fun d => d / 1)

/-- `calculate_price_velocity`: the whole velocity series. -/
def calculate_price_velocity (xs : List ℚ) : List (Option ℚ) :=
  (List.range xs.length).map (velocityAt xs)

/-- `calculate_price_curvature` at index `t`: `velocity.diff() / 1`. -/
def curvatureAt (xs : List ℚ) (t : ℕ) : Option ℚ :=
  (odiffAt (velocityAt xs) xs.length t).map (fun d => d / 1)

/-- `calculate_price_curvature`: the whole curvature series. -/
def calculate_price_curvature (xs : List ℚ) : List (Option ℚ) :=
  (List.range xs.length).map (curvatureAt xs)

/-- The `1e-10` guard used by `calculate_volume_sensitivity`. -/
def epsq : ℚ := 1 / 10 ^ 10

/-- `calculate_volume_sensitivity` at index `t`:
`(price.diff() / (volume.diff() + 1e-10)).replace([inf, -inf], 0)`. -/
def volumeSensitivityAt (ps vs : List ℚ) (t : ℕ) : FVal :=
  replace_infinities (fdivO (diffAt ps t) ((diffAt vs t).map (fun d => d + epsq)))

/-- `calculate_volume_sensitivity`: the whole sanitized series. -/
def calculate_volume_sensitivity (ps vs : List ℚ) : List FVal :=
  (List.range ps.length).map (volumeSensitivityAt ps vs)

/-- `pandas.Series.rolling(window=w).mean()` at index `t` of series `xs`. -/
def rollingMeanAt (xs : List ℚ) (w t : ℕ) : Option ℚ :=
  if t + 1 < w ∨ xs.length ≤ t then none
  else some ((∑ i ∈ Finset.range w, xs.getD (t - i) 0) / (w : ℚ))

/-- True range at `t` as in `calculate_average_true_range`; at `t = 0` the two
shifted terms are NaN and `pandas` `max(axis=1)` skips NaN. -/
def trueRangeAt (high low close : List ℚ) (t : ℕ) : ℚ :=
  if t = 0 then seriesAt high 0 - seriesAt low 0
  else
    max (seriesAt high t - seriesAt low t)
      (max |seriesAt high t - seriesAt close (t - 1)|
        |seriesAt low t - seriesAt close (t - 1)|)

/-- `calculate_average_true_range` at `t`: rolling 14-bar mean of true range. -/
def atrAt (high low close : List ℚ) (t : ℕ) : Option ℚ :=
  if t + 1 < 14 ∨ close.length ≤ t then none
  else some ((∑ i ∈ Finset.range 14, trueRangeAt high low close (t - i)) / (14 : ℚ))

/-- `volume_series / volume_series.rolling(20).mean()` at index `t`. -/
def volumeRatioAt (vols : List ℚ) (t : ℕ) : FVal :=
  match rollingMeanAt vols 20 t with
  | none => FVal.nan
  | some m => fdivQ (seriesAt vols t) m

/-- `detect_institutional_volume_participation` at index `t`:
`(volume_ratio * abs(price_volume_correlation.fillna(0))).fillna(0)`.
The rolling Pearson correlation (window 10) of the two pct-change series is
real-valued (it involves square roots), so it is supplied by the oracle
`corr`; `none` models a NaN correlation. -/
def institutionalFactorAt (vols prices : List ℚ) (corr : ℕ → Option ℚ) (t : ℕ) : FVal :=
  fillna0 (fmulQ (volumeRatioAt vols t) |(corr t).getD 0|)

/-- `detect_institutional_volume_participation`: the whole factor series. -/
def detect_institutional_volume_participation (vols prices : List ℚ)
    (corr : ℕ → Option ℚ) : List FVal :=
  (List.range vols.length).map (institutionalFactorAt vols prices corr)

/-- One symbol's fetched OHLCV data (an aligned `pandas` DataFrame). -/
structure Frame where
  high : List ℚ
  low : List ℚ
  close : List ℚ
  volume : List ℚ
deriving DecidableEq

/-- The default NIFTY universe built by `_get_nifty_500_universe`. -/
def get_nifty_500_universe : List String :=
  ["RELIANCE.NS", "TCS.NS", "HDFCBANK.NS", "INFY.NS", "HINDUNILVR.NS",
   "ITC.NS", "SBIN.NS", "BHARTIARTL.NS", "ASIANPAINT.NS", "MARUTI.NS",
   "KOTAKBANK.NS", "LT.NS", "AXISBANK.NS", "NESTLEIND.NS", "WIPRO.NS",
   "ULTRACEMCO.NS", "BAJFINANCE.NS", "HCLTECH.NS", "SUNPHARMA.NS", "ONGC.NS"]

/-- The engine's construction-time configuration (`__init__`). -/
structure PriceVolumeDerivativesEngine where
  lookback_period : ℕ := 252
  minimum_daily_liquidity : ℚ := 1000000
  maximum_positions : ℕ := 25
  atr_hard_stop_multiplier : ℚ := 2
  atr_trailing_stop_multiplier : ℚ := 3
  indian_market_symbols : List String := get_nifty_500_universe

/-- An engine built with the default constructor arguments. -/
def mkEngine : PriceVolumeDerivativesEngine := {}

/-- The `PDMSignal` dataclass.  `timestamp` is an abstract clock tick;
fields produced by float computations that can be NaN are `Option ℚ`/`FVal`. -/
structure PDMSignal where
  symbol : String
  signal_type : String
  price : ℚ
  timestamp : ℤ
  price_velocity : Option ℚ
  price_curvature : Option ℚ
  volume_sensitivity : FVal
  atr_stop_loss : Option ℚ
  trailing_stop : Option ℚ
  confidence_score : FVal
  institutional_volume_factor : FVal
deriving DecidableEq

/-- Index of `iloc[-1]` for a fetched frame. -/
def lastIdx (df : Frame) : ℕ := df.close.length - 1

/-- `trend_confirmation`: `sma_20[-1] > sma_200[-1] and price[-1] > sma_20[-1]`. -/
def trend_confirmation (df : Frame) : Bool :=
  ogtO (rollingMeanAt df.close 20 (lastIdx df)) (rollingMeanAt df.close 200 (lastIdx df)) &&
  ogtO (some (seriesAt df.close (lastIdx df))) (rollingMeanAt df.close 20 (lastIdx df))

/-- `positive_velocity`: `latest_velocity > 0`. -/
def positive_velocity (df : Frame) : Bool :=
  ogt0 (velocityAt df.close (lastIdx df))

/-- `early_impulse`: `latest_curvature < 0`. -/
def early_impulse (df : Frame) : Bool :=
  olt0 (curvatureAt df.close (lastIdx df))

/-- `volume_validation`: `latest_institutional_factor > 1.2`. -/
def volume_validation (df : Frame) (corr : ℕ → Option ℚ) : Bool :=
  fgtC (institutionalFactorAt df.volume df.close corr (lastIdx df)) (12 / 10)

/-- `confidence_score = sum(confidence_components) / len(confidence_components)`:
the mean of the three 0/1 booleans and `min(latest_institutional_factor / 2.0, 1.0)`. -/
def confidence_score_val (df : Frame) (corr : ℕ → Option ℚ) : FVal :=
  fdivC
    (faddQ
      ((if trend_confirmation df then (1 : ℚ) else 0) +
        (if positive_velocity df then (1 : ℚ) else 0) +
        (if early_impulse df then (1 : ℚ) else 0))
      (fminC (fdivC (institutionalFactorAt df.volume df.close corr (lastIdx df)) 2) 1))
    4

/-- The entry condition of `generate_pdm_signals`:
`trend_confirmation and positive_velocity and early_impulse and
volume_validation and confidence_score > 0.7`. -/
def pdm_conditions (df : Frame) (corr : ℕ → Option ℚ) : Bool :=
  trend_confirmation df && positive_velocity df && early_impulse df &&
  volume_validation df corr && fgtC (confidence_score_val df corr) (7 / 10)

/-- `generate_pdm_signals`.  `data` is the `yf.download` result (`none` models a
fetch failure, caught by the surrounding `try`/`except`), `corr` the rolling
correlation oracle, `now` the `datetime.now()` reading, `symbol` the ticker. -/
def generate_pdm_signals (engine : PriceVolumeDerivativesEngine) (data : Option Frame)
    (corr : ℕ → Option ℚ) (now : ℤ) (symbol : String) : Option PDMSignal :=
  match data with
  | none => none
  | some df =>
    if df.close.length = 0 ∨ df.close.length < 200 then none
    else
      let latest_price := seriesAt df.close (lastIdx df)
      let latest_atr := atrAt df.high df.low df.close (lastIdx df)
      some
        { symbol := symbol
          signal_type := if pdm_conditions df corr then "LONG" else "HOLD"
          price := latest_price
          timestamp := now
          price_velocity := velocityAt df.close (lastIdx df)
          price_curvature := curvatureAt df.close (lastIdx df)
          volume_sensitivity := volumeSensitivityAt df.close df.volume (lastIdx df)
          atr_stop_loss := latest_atr.map (fun a => latest_price - a * engine.atr_hard_stop_multiplier)
          trailing_stop := latest_atr.map (fun a => latest_price - a * engine.atr_trailing_stop_multiplier)
          confidence_score := confidence_score_val df corr
          institutional_volume_factor := institutionalFactorAt df.volume df.close corr (lastIdx df) }

/-- `daily_liquidity = stock_data.Volume.mean() * stock_data.Close.mean()`. -/
def daily_liquidity (df : Frame) : ℚ :=
  (df.volume.sum / (df.volume.length : ℚ)) * (df.close.sum / (df.close.length : ℚ))

/-- `filter_stocks_by_liquidity`.  `fetch30` is the 30-day `yf.download`
(`none` models an exception, caught and skipped); an empty frame is skipped. -/
def filter_stocks_by_liquidity (engine : PriceVolumeDerivativesEngine)
    (fetch30 : String → Option Frame) (symbols : List String) : List String :=
  symbols.filter fun s =>
    match fetch30 s with
    | none => false
    | some df =>
      if df.close.length = 0 then false
      else decide (engine.minimum_daily_liquidity ≤ daily_liquidity df)

/-- The signal-collection loop of `scan_universe_for_opportunities`: per symbol
run `generate_pdm_signals` and keep the result only when it is a LONG signal. -/
def collect_long_signals (engine : PriceVolumeDerivativesEngine)
    (fetchFull : String → Option Frame) (corrOf : String → ℕ → Option ℚ)
    (now : ℤ) (syms : List String) : List PDMSignal :=
  syms.filterMap fun s =>
    match generate_pdm_signals engine (fetchFull s) (corrOf s) now s with
    | some sig => if sig.signal_type = "LONG" then some sig else none
    | none => none

/-- One step of the stable descending sort used to model
`signals.sort(key=lambda x: x.confidence_score, reverse=True)`:
insert `s` before the first element whose key is strictly below it. -/
def insert_desc (s : PDMSignal) : List PDMSignal → List PDMSignal
  | [] => [s]
  | t :: ts =>
    if fltF t.confidence_score s.confidence_score then s :: t :: ts
    else t :: insert_desc s ts

/-- Stable sort of the signals, descending by `confidence_score`. -/
def sort_signals_desc (l : List PDMSignal) : List PDMSignal :=
  l.foldr insert_desc []

/-- The final ranking stage of `scan_universe_for_opportunities`:
sort descending by confidence and truncate to `maximum_positions`. -/
def rank_and_truncate (max_pos : ℕ) (signals : List PDMSignal) : List PDMSignal :=
  (sort_signals_desc signals).take max_pos

/-- `scan_universe_for_opportunities`: liquidity-filter the configured
universe, evaluate only the first 10 liquid symbols (the hardcoded demo
limit `liquid_stocks[:10]`), keep LONG signals, rank and truncate. -/
def scan_universe_for_opportunities (engine : PriceVolumeDerivativesEngine)
    (fetch30 fetchFull : String → Option Frame) (corrOf : String → ℕ → Option ℚ)
    (now : ℤ) : List PDMSignal :=
  let liquid := filter_stocks_by_liquidity engine fetch30 engine.indian_market_symbols
  let signals := collect_long_signals engine fetchFull corrOf now (liquid.take 10)
  rank_and_truncate engine.maximum_positions signals

/-! ## Helper lemmas -/

theorem rangeMap_getD {α : Type} (f : ℕ → Option α) (n t : ℕ) (h : t < n) :
    ((List.range n).map f).getD t none = f t := by
  have hlen : t < ((List.range n).map f).length := by simpa using h
  rw [List.getD_eq_getElem _ _ hlen]
  simp

/-! ## Concrete inputs used by witnesses -/

/-- The worked five-bar price series from the specification. -/
def demo_prices : List ℚ := [100, 101, 103, 102, 105]

/-- A frame with no rows. -/
def emptyFrame : Frame := ⟨[], [], [], []⟩

/-- A constant 200-bar series. -/
def constList : List ℚ := List.replicate 200 1

/-- A 200-bar frame of constant bars. -/
def testFrame : Frame := ⟨constList, constList, constList, constList⟩

/-! ## Claim theorems -/

/-- C2: for the price series `[100,101,103,102,105]` the velocity series is
`[undefined,1,2,-1,3]` and the curvature series is `[undefined,undefined,1,-3,4]`;
in general `velocity[t] = price[t] - price[t-1]` for `t ≥ 1` (undefined at
`t = 0`) and `curvature[t] = velocity[t] - velocity[t-1]` for `t ≥ 2`
(undefined before that). -/
theorem derivative_series_spec (xs : List ℚ) (t s : ℕ) (a b : ℚ)
    (ht1 : 1 ≤ t) (ht2 : t < xs.length) (hs1 : 2 ≤ s) (hs2 : s < xs.length)
    (ha : velocityAt xs s = some a) (hb : velocityAt xs (s - 1) = some b) :
    (calculate_price_velocity xs).getD t none = some (xs.getD t 0 - xs.getD (t - 1) 0) ∧
    (calculate_price_velocity xs).getD 0 none = none ∧
    (calculate_price_curvature xs).getD s none = some (a - b) ∧
    (calculate_price_curvature xs).getD 0 none = none ∧
    (calculate_price_curvature xs).getD 1 none = none ∧
    calculate_price_velocity demo_prices = [none, some 1, some 2, some (-1), some 3] ∧
    calculate_price_curvature demo_prices = [none, none, some 1, some (-3), some 4] := by
  refine ⟨?_, ?_, ?_, ?_, ?_,
    by norm_num [calculate_price_velocity, velocityAt, diffAt, seriesAt, demo_prices,
      List.range_succ],
    by norm_num [calculate_price_curvature, curvatureAt, odiffAt, velocityAt, diffAt,
      seriesAt, demo_prices, List.range_succ]⟩
  · rw [calculate_price_velocity, rangeMap_getD _ _ _ ht2, velocityAt, diffAt,
      if_pos ⟨ht1, ht2⟩]
    simp [seriesAt]
  · rcases Nat.eq_zero_or_pos xs.length with h | h
    · simp [calculate_price_velocity, h]
    · rw [calculate_price_velocity, rangeMap_getD _ _ _ h]
      simp [velocityAt, diffAt]
  · rw [calculate_price_curvature, rangeMap_getD _ _ _ hs2, curvatureAt, odiffAt,
      if_pos ⟨by omega, hs2⟩, ha, hb]
    simp
  · rcases Nat.eq_zero_or_pos xs.length with h | h
    · simp [calculate_price_curvature, h]
    · rw [calculate_price_curvature, rangeMap_getD _ _ _ h]
      simp [curvatureAt, odiffAt]
  · rcases Nat.lt_or_ge 1 xs.length with h | h
    · rw [calculate_price_curvature, rangeMap_getD _ _ _ h]
      have hv0 : velocityAt xs 0 = none := by simp [velocityAt, diffAt]
      rw [curvatureAt, odiffAt, if_pos ⟨le_refl 1, h⟩]
      cases hv : velocityAt xs 1 <;> simp [hv0]
    · apply List.getD_eq_default
      simpa [calculate_price_curvature] using h

/-- C2 witness: instantiation at the worked series with `t = 1`, `s = 2`. -/
theorem derivative_series_spec_witness :
    (1 ≤ 1 ∧ 1 < demo_prices.length ∧ 2 ≤ 2 ∧ 2 < demo_prices.length ∧
      velocityAt demo_prices 2 = some 2 ∧ velocityAt demo_prices 1 = some 1) ∧
    ((calculate_price_velocity demo_prices).getD 1 none =
        some (demo_prices.getD 1 0 - demo_prices.getD 0 0) ∧
      (calculate_price_velocity demo_prices).getD 0 none = none ∧
      (calculate_price_curvature demo_prices).getD 2 none = some (2 - 1) ∧
      (calculate_price_curvature demo_prices).getD 0 none = none ∧
      (calculate_price_curvature demo_prices).getD 1 none = none ∧
      calculate_price_velocity demo_prices = [none, some 1, some 2, some (-1), some 3] ∧
      calculate_price_curvature demo_prices = [none, none, some 1, some (-3), some 4]) :=
  ⟨by norm_num [demo_prices, velocityAt, diffAt, seriesAt],
    derivative_series_spec demo_prices 1 2 2 1 (by norm_num) (by norm_num [demo_prices])
      (by norm_num) (by norm_num [demo_prices])
      (by norm_num [demo_prices, velocityAt, diffAt, seriesAt])
      (by norm_num [demo_prices, velocityAt, diffAt, seriesAt])⟩

/-- C5: every entry of the volume-sensitivity series is non-infinite: the
division `price.diff() / (volume.diff() + 1e-10)` is sanitized by replacing
any ±infinity with 0, so no ±infinity is ever propagated. -/
theorem volume_sensitivity_never_inf (ps vs : List ℚ) (x : FVal)
    (hx : x ∈ calculate_volume_sensitivity ps vs) :
    x ≠ FVal.inf ∧ x ≠ FVal.ninf := by
  obtain ⟨t, -, rfl⟩ := List.mem_map.mp hx
  unfold volumeSensitivityAt
  cases fdivO (diffAt ps t) ((diffAt vs t).map (fun d => d + epsq)) <;>
    simp [replace_infinities]

/-- C5 witness: the entry at index 1 for a zero volume delta is finite. -/
theorem volume_sensitivity_never_inf_witness :
    volumeSensitivityAt [0, 1] [5, 5] 1 ∈ calculate_volume_sensitivity [0, 1] [5, 5] ∧
    (volumeSensitivityAt [0, 1] [5, 5] 1 ≠ FVal.inf ∧
      volumeSensitivityAt [0, 1] [5, 5] 1 ≠ FVal.ninf) :=
  ⟨by simp [calculate_volume_sensitivity, List.range_succ],
    volume_sensitivity_never_inf [0, 1] [5, 5] _
      (by simp [calculate_volume_sensitivity, List.range_succ])⟩

/-- C4: a missing fetch result or a series of fewer than 200 bars makes
`generate_pdm_signals` return `None`, and a series of at least 200 bars is
never rejected on that ground (a signal is always produced). -/
theorem insufficient_history_returns_none (engine : PriceVolumeDerivativesEngine)
    (corr : ℕ → Option ℚ) (now : ℤ) (sym : String) (dfShort dfLong : Frame)
    (h1 : dfShort.close.length < 200) (h2 : 200 ≤ dfLong.close.length) :
    generate_pdm_signals engine (some dfShort) corr now sym = none ∧
    generate_pdm_signals engine none corr now sym = none ∧
    ∃ sig, generate_pdm_signals engine (some dfLong) corr now sym = some sig := by
  refine ⟨?_, rfl, ?_⟩
  · simp only [generate_pdm_signals]
    rw [if_pos (Or.inr h1)]
  · simp only [generate_pdm_signals]
    rw [if_neg (by omega)]
    exact ⟨_, rfl⟩

/-- C4 witness: an empty frame is rejected, a 200-bar frame is not. -/
theorem insufficient_history_returns_none_witness :
    (emptyFrame.close.length < 200 ∧ 200 ≤ testFrame.close.length) ∧
    (generate_pdm_signals mkEngine (some emptyFrame) (fun _ => none) 0 "TEST" = none ∧
      generate_pdm_signals mkEngine none (fun _ => none) 0 "TEST" = none ∧
      ∃ sig, generate_pdm_signals mkEngine (some testFrame) (fun _ => none) 0 "TEST" = some sig) :=
  ⟨⟨by norm_num [emptyFrame], by norm_num [testFrame, constList]⟩,
    insufficient_history_returns_none mkEngine (fun _ => none) 0 "TEST" emptyFrame testFrame
      (by norm_num [emptyFrame]) (by norm_num [testFrame, constList])⟩

/-- C1: for an evaluation with at least 200 bars a signal is produced, its
`signal_type` is LONG exactly when trend confirmation, positive velocity,
early impulse (negative curvature), institutional volume validation
(factor > 1.2) and `confidence_score > 0.7` all hold, and otherwise it is
HOLD. -/
theorem signal_type_long_iff_conditions (engine : PriceVolumeDerivativesEngine)
    (df : Frame) (corr : ℕ → Option ℚ) (now : ℤ) (sym : String)
    (h200 : 200 ≤ df.close.length) :
    ∃ sig, generate_pdm_signals engine (some df) corr now sym = some sig ∧
      (sig.signal_type = "LONG" ↔ pdm_conditions df corr = true) ∧
      pdm_conditions df corr =
        (trend_confirmation df && positive_velocity df && early_impulse df &&
          volume_validation df corr && fgtC (confidence_score_val df corr) (7 / 10)) ∧
      (pdm_conditions df corr = false → sig.signal_type = "HOLD") := by
  simp only [generate_pdm_signals]
  rw [if_neg (by omega)]
  refine ⟨_, rfl, ?_, rfl, ?_⟩
  · cases h : pdm_conditions df corr <;> simp [h]
  · intro h
    simp [h]

/-- C1 witness: instantiation at the constant 200-bar frame. -/
theorem signal_type_long_iff_conditions_witness :
    200 ≤ testFrame.close.length ∧
    (∃ sig, generate_pdm_signals mkEngine (some testFrame) (fun _ => none) 0 "TEST" = some sig ∧
      (sig.signal_type = "LONG" ↔ pdm_conditions testFrame (fun _ => none) = true) ∧
      pdm_conditions testFrame (fun _ => none) =
        (trend_confirmation testFrame && positive_velocity testFrame &&
          early_impulse testFrame && volume_validation testFrame (fun _ => none) &&
          fgtC (confidence_score_val testFrame (fun _ => none)) (7 / 10)) ∧
      (pdm_conditions testFrame (fun _ => none) = false → sig.signal_type = "HOLD")) :=
  ⟨by norm_num [testFrame, constList],
    signal_type_long_iff_conditions mkEngine testFrame (fun _ => none) 0 "TEST"
      (by norm_num [testFrame, constList])⟩

/-- Overwrite a signal's timestamp (used to compare signals up to timestamp). -/
def with_timestamp (sig : PDMSignal) (ts : ℤ) : PDMSignal :=
  { sig with timestamp := ts }

theorem generate_map_timestamp (engine : PriceVolumeDerivativesEngine) (df : Frame)
    (corr : ℕ → Option ℚ) (now : ℤ) (sym : String) (h : 200 ≤ df.close.length) :
    (generate_pdm_signals engine (some df) corr now sym).map PDMSignal.timestamp =
      some now := by
  simp only [generate_pdm_signals]
  rw [if_neg (by omega)]
  rfl

/-- C3 counterexample: evaluating the same 200-bar series twice, at clock
readings 0 and 1, yields signals that are not identical (the `timestamp`
field records `datetime.now()`), refuting bit-identical repeated evaluation. -/
theorem repeated_evaluation_not_identical :
    generate_pdm_signals mkEngine (some testFrame) (fun _ => none) 0 "TEST" ≠
      generate_pdm_signals mkEngine (some testFrame) (fun _ => none) 1 "TEST" := by
  intro h
  have h2 := congrArg (Option.map PDMSignal.timestamp) h
  rw [generate_map_timestamp mkEngine testFrame (fun _ => none) 0 "TEST"
      (by norm_num [testFrame, constList]),
    generate_map_timestamp mkEngine testFrame (fun _ => none) 1 "TEST"
      (by norm_num [testFrame, constList])] at h2
  simp at h2

/-- C3 amended: evaluation is a deterministic function of the input series,
the correlation values and the clock reading; two evaluations of the same
series agree on every field except `timestamp`, which records the
`datetime.now()` reading of each evaluation. -/
theorem evaluation_deterministic_modulo_timestamp (engine : PriceVolumeDerivativesEngine)
    (data : Option Frame) (corr : ℕ → Option ℚ) (sym : String) (now1 now2 : ℤ) :
    (generate_pdm_signals engine data corr now1 sym).map (fun s => with_timestamp s 0) =
      (generate_pdm_signals engine data corr now2 sym).map (fun s => with_timestamp s 0) := by
  cases data with
  | none => rfl
  | some df =>
    simp only [generate_pdm_signals]
    split
    · rfl
    · rfl

/-- C7: with available, non-empty 30-day data, the liquidity filter retains a
symbol exactly when its average dollar liquidity `mean(volume) * mean(close)`
is at least `minimum_daily_liquidity`, and the output lists retained symbols
in their input order (it is a sublist of the input). -/
theorem liquidity_filter_iff_and_order (engine : PriceVolumeDerivativesEngine)
    (fetch30 : String → Option Frame) (symbols : List String) (s : String) (df : Frame)
    (h1 : fetch30 s = some df) (h2 : df.close.length ≠ 0) :
    (s ∈ filter_stocks_by_liquidity engine fetch30 symbols ↔
      s ∈ symbols ∧ engine.minimum_daily_liquidity ≤ daily_liquidity df) ∧
    (filter_stocks_by_liquidity engine fetch30 symbols).Sublist symbols := by
  constructor
  · rw [filter_stocks_by_liquidity, List.mem_filter, h1]
    simp [h2]
  · exact List.filter_sublist _

/-- A frame whose trailing dollar liquidity is 2,000,000. -/
def liqFrameA : Frame := ⟨[1000], [1000], [1000], [2000]⟩

/-- A frame whose trailing dollar liquidity is 500,000. -/
def liqFrameB : Frame := ⟨[1000], [1000], [1000], [500]⟩

/-- The two-symbol fetch oracle for the liquidity example. -/
def liqFetch : String → Option Frame :=
  fun s => if s = "A" then some liqFrameA else if s = "B" then some liqFrameB else none

/-- C7 witness: with a 1,000,000 threshold, the 2,000,000-liquidity symbol
satisfies the retention criterion and the filter output preserves order. -/
theorem liquidity_filter_iff_and_order_witness :
    (liqFetch "A" = some liqFrameA ∧ liqFrameA.close.length ≠ 0) ∧
    (("A" ∈ filter_stocks_by_liquidity mkEngine liqFetch ["A", "B"] ↔
        "A" ∈ ["A", "B"] ∧ mkEngine.minimum_daily_liquidity ≤ daily_liquidity liqFrameA) ∧
      (filter_stocks_by_liquidity mkEngine liqFetch ["A", "B"]).Sublist ["A", "B"]) :=
  ⟨⟨rfl, by norm_num [liqFrameA]⟩,
    liquidity_filter_iff_and_order mkEngine liqFetch ["A", "B"] "A" liqFrameA rfl
      (by norm_num [liqFrameA])⟩

/-- C8: a symbol whose data fetch fails (or returns empty) during liquidity
filtering, and a symbol whose evaluation fails during scanning, are dropped
at the symbol boundary: the batch results equal the results for the universe
without that symbol, so the other symbols' results are still produced. -/
theorem single_symbol_failure_isolated (engine : PriceVolumeDerivativesEngine)
    (fetch30 fetchFull : String → Option Frame) (corrOf : String → ℕ → Option ℚ)
    (now : ℤ) (xs ys : List String) (bad : String)
    (h30 : fetch30 bad = none ∨ ∃ df, fetch30 bad = some df ∧ df.close.length = 0)
    (hF : generate_pdm_signals engine (fetchFull bad) (corrOf bad) now bad = none) :
    filter_stocks_by_liquidity engine fetch30 (xs ++ bad :: ys) =
      filter_stocks_by_liquidity engine fetch30 (xs ++ ys) ∧
    collect_long_signals engine fetchFull corrOf now (xs ++ bad :: ys) =
      collect_long_signals engine fetchFull corrOf now (xs ++ ys) := by
  constructor
  · have hpred : (match fetch30 bad with
        | none => false
        | some df =>
          if df.close.length = 0 then false
          else decide (engine.minimum_daily_liquidity ≤ daily_liquidity df)) = false := by
      rcases h30 with h | ⟨df, hdf, hlen⟩
      · rw [h]
      · rw [hdf]
        simp [hlen]
    simp only [filter_stocks_by_liquidity, List.filter_append, List.filter_cons]
    rw [hpred]
    simp
  · simp only [collect_long_signals, List.filterMap_append, List.filterMap_cons, hF]

/-- C8 witness: a universe where the middle symbol is unreachable in both
oracles; the filter and the scan loop produce the other symbols' results. -/
theorem single_symbol_failure_isolated_witness :
    (((fun _ => (none : Option Frame)) "B" = none ∨
        ∃ df, (fun _ => (none : Option Frame)) "B" = some df ∧ df.close.length = 0) ∧
      generate_pdm_signals mkEngine ((fun _ => (none : Option Frame)) "B")
        ((fun _ => fun _ => (none : Option ℚ)) "B") 0 "B" = none) ∧
    (filter_stocks_by_liquidity mkEngine (fun _ => none) (["A"] ++ "B" :: ["C"]) =
        filter_stocks_by_liquidity mkEngine (fun _ => none) (["A"] ++ ["C"]) ∧
      collect_long_signals mkEngine (fun _ => none) (fun _ => fun _ => none) 0
          (["A"] ++ "B" :: ["C"]) =
        collect_long_signals mkEngine (fun _ => none) (fun _ => fun _ => none) 0
          (["A"] ++ ["C"])) :=
  ⟨⟨Or.inl rfl, rfl⟩,
    single_symbol_failure_isolated mkEngine (fun _ => none) (fun _ => none)
      (fun _ => fun _ => none) 0 ["A"] ["C"] "B" (Or.inl rfl) rfl⟩

/-! ## Sorting lemmas -/

/-- Descending order on signals: the earlier signal's confidence is not
strictly below the later one's (float comparison, NaN incomparable). -/
def descBy (a b : PDMSignal) : Prop :=
  fltF a.confidence_score b.confidence_score = false

theorem fltF_asymm {a b : FVal} (h : fltF a b = true) : fltF b a = false := by
  cases a <;> cases b <;> simp_all [fltF] <;> linarith

theorem fltF_trans3 {a b c : FVal} (h1 : fltF a b = true) (h2 : fltF b c = true) :
    fltF a c = true := by
  cases a <;> cases b <;> cases c <;> simp_all [fltF] <;> linarith

theorem mem_insert_desc {x s : PDMSignal} {l : List PDMSignal} :
    x ∈ insert_desc s l ↔ x = s ∨ x ∈ l := by
  induction l with
  | nil => simp [insert_desc]
  | cons t ts ih =>
    rw [insert_desc]
    split
    · simp
    · rw [List.mem_cons, ih, List.mem_cons]
      tauto

theorem pairwise_insert_desc {s : PDMSignal} {l : List PDMSignal}
    (h : l.Pairwise descBy) : (insert_desc s l).Pairwise descBy := by
  induction l with
  | nil => simp [insert_desc]
  | cons t ts ih =>
    rw [List.pairwise_cons] at h
    obtain ⟨ht, hts⟩ := h
    rw [insert_desc]
    split
    · rename_i hlt
      refine List.Pairwise.cons ?_ (List.Pairwise.cons ht hts)
      intro y hy
      rcases List.mem_cons.mp hy with rfl | hy2
      · exact fltF_asymm hlt
      · rw [descBy]
        cases hfl : fltF s.confidence_score y.confidence_score
        · rfl
        · have h3 := fltF_trans3 hlt hfl
          have hty := ht y hy2
          rw [descBy] at hty
          rw [hty] at h3
          exact absurd h3 (by simp)
    · rename_i hnlt
      refine List.Pairwise.cons ?_ (ih hts)
      intro y hy
      rcases mem_insert_desc.mp hy with rfl | hy2
      · exact Bool.eq_false_iff.mpr hnlt
      · exact ht y hy2

theorem pairwise_sort_signals_desc (l : List PDMSignal) :
    (sort_signals_desc l).Pairwise descBy := by
  induction l with
  | nil => simp [sort_signals_desc]
  | cons t ts ih =>
    rw [sort_signals_desc, List.foldr_cons]
    exact pairwise_insert_desc ih

theorem mem_sort_signals_desc {x : PDMSignal} {l : List PDMSignal} :
    x ∈ sort_signals_desc l ↔ x ∈ l := by
  induction l with
  | nil => simp [sort_signals_desc]
  | cons t ts ih =>
    rw [sort_signals_desc, List.foldr_cons]
    rw [mem_insert_desc]
    rw [List.mem_cons]
    rw [← sort_signals_desc, ih]

theorem length_sort_signals_desc (l : List PDMSignal) :
    (sort_signals_desc l).length = l.length := by
  have hins : ∀ (s : PDMSignal) (m : List PDMSignal),
      (insert_desc s m).length = m.length + 1 := by
    intro s m
    induction m with
    | nil => rfl
    | cons t ts ih =>
      rw [insert_desc]
      split
      · rfl
      · simp [ih]
  induction l with
  | nil => rfl
  | cons t ts ih =>
    rw [sort_signals_desc, List.foldr_cons, hins, ← sort_signals_desc, ih, List.length_cons]

theorem mem_collect_long_signals {engine : PriceVolumeDerivativesEngine}
    {fetchFull : String → Option Frame} {corrOf : String → ℕ → Option ℚ} {now : ℤ}
    {syms : List String} {x : PDMSignal}
    (hx : x ∈ collect_long_signals engine fetchFull corrOf now syms) :
    ∃ s ∈ syms, generate_pdm_signals engine (fetchFull s) (corrOf s) now s = some x ∧
      x.signal_type = "LONG" := by
  obtain ⟨s, hs, hf⟩ := List.mem_filterMap.mp hx
  refine ⟨s, hs, ?_⟩
  revert hf
  cases hgen : generate_pdm_signals engine (fetchFull s) (corrOf s) now s with
  | none => intro hf; cases hf
  | some sig =>
    intro hf
    change (if sig.signal_type = "LONG" then some sig else none) = some x at hf
    by_cases hl : sig.signal_type = "LONG"
    · rw [if_pos hl] at hf
      cases hf
      exact ⟨rfl, hl⟩
    · rw [if_neg hl] at hf
      cases hf

theorem generate_pdm_signals_symbol {engine : PriceVolumeDerivativesEngine}
    {data : Option Frame} {corr : ℕ → Option ℚ} {now : ℤ} {sym : String} {sig : PDMSignal}
    (h : generate_pdm_signals engine data corr now sym = some sig) : sig.symbol = sym := by
  cases data with
  | none => cases h
  | some df =>
    simp only [generate_pdm_signals] at h
    split at h
    · cases h
    · cases h
      rfl

/-- A qualifying LONG signal with the given confidence, used to instantiate
the ranking example from the specification. -/
def demo_signal (c : ℚ) : PDMSignal :=
  { symbol := "DEMO", signal_type := "LONG", price := 100, timestamp := 0,
    price_velocity := some 1, price_curvature := some (-1),
    volume_sensitivity := FVal.fin 0, atr_stop_loss := some 90,
    trailing_stop := some 85, confidence_score := FVal.fin c,
    institutional_volume_factor := FVal.fin 2 }

/-- C6: every signal the scan returns is LONG, the returned list is sorted in
descending order of confidence and has at most `maximum_positions` entries;
three qualifying LONG signals ranked 0.9, 0.75, 0.72 with a cap of 2 yield
exactly the first two in that order; and with no reachable data the scan
returns the empty list as a normal value. -/
theorem scan_long_sorted_truncated (engine : PriceVolumeDerivativesEngine)
    (fetch30 fetchFull : String → Option Frame) (corrOf : String → ℕ → Option ℚ)
    (now : ℤ) :
    (∀ sig ∈ scan_universe_for_opportunities engine fetch30 fetchFull corrOf now,
      sig.signal_type = "LONG") ∧
    (scan_universe_for_opportunities engine fetch30 fetchFull corrOf now).Pairwise descBy ∧
    (scan_universe_for_opportunities engine fetch30 fetchFull corrOf now).length ≤
      engine.maximum_positions ∧
    rank_and_truncate 2
        [demo_signal (9 / 10), demo_signal (3 / 4), demo_signal (18 / 25)] =
      [demo_signal (9 / 10), demo_signal (3 / 4)] ∧
    scan_universe_for_opportunities mkEngine (fun _ => none) fetchFull corrOf now = [] := by
  refine ⟨?_, ?_, ?_, ?_, rfl⟩
  · intro sig hsig
    simp only [scan_universe_for_opportunities, rank_and_truncate] at hsig
    have h1 := mem_sort_signals_desc.mp (List.mem_of_mem_take hsig)
    obtain ⟨s, -, -, hl⟩ := mem_collect_long_signals h1
    exact hl
  · simp only [scan_universe_for_opportunities, rank_and_truncate]
    exact (pairwise_sort_signals_desc _).sublist (List.take_sublist _ _)
  · simp only [scan_universe_for_opportunities, rank_and_truncate]
    exact List.length_take_le _ _
  · norm_num [rank_and_truncate, sort_signals_desc, insert_desc, demo_signal, fltF]

/-- C10: the scan evaluates only the first 10 liquidity-filtered symbols
(the hardcoded `liquid_stocks[:10]` cap): every returned signal's symbol
comes from those first 10, the returned list has at most 10 entries for any
universe, while the configured `maximum_positions` default is 25. -/
theorem scan_capped_at_ten_symbols (uni : List String)
    (fetch30 fetchFull : String → Option Frame) (corrOf : String → ℕ → Option ℚ)
    (now : ℤ) :
    (∀ sig ∈ scan_universe_for_opportunities
        { mkEngine with indian_market_symbols := uni } fetch30 fetchFull corrOf now,
      sig.symbol ∈ (filter_stocks_by_liquidity
        { mkEngine with indian_market_symbols := uni } fetch30 uni).take 10) ∧
    (scan_universe_for_opportunities
        { mkEngine with indian_market_symbols := uni } fetch30 fetchFull corrOf
        now).length ≤ 10 ∧
    mkEngine.maximum_positions = 25 := by
  refine ⟨?_, ?_, rfl⟩
  · intro sig hsig
    simp only [scan_universe_for_opportunities, rank_and_truncate] at hsig
    have h1 := mem_sort_signals_desc.mp (List.mem_of_mem_take hsig)
    obtain ⟨s, hs, hgen, -⟩ := mem_collect_long_signals h1
    rw [generate_pdm_signals_symbol hgen]
    exact hs
  · simp only [scan_universe_for_opportunities, rank_and_truncate]
    rw [List.length_take, length_sort_signals_desc]
    exact le_trans (min_le_right _ _)
      (le_trans (List.length_filterMap_le _ _) (List.length_take_le _ _))

/-! ## Institutional factor nonnegativity -/

theorem getD_nonneg {l : List ℚ} (h : ∀ v ∈ l, 0 ≤ v) (j : ℕ) : 0 ≤ l.getD j 0 := by
  rcases Nat.lt_or_ge j l.length with hj | hj
  · rw [List.getD_eq_getElem l 0 hj]
    exact h _ (List.getElem_mem hj)
  · rw [List.getD_eq_default l 0 hj]

theorem institutionalFactorAt_nonneg (vols prices : List ℚ) (corr : ℕ → Option ℚ)
    (t : ℕ) (h : ∀ v ∈ vols, 0 ≤ v) :
    ∃ q, institutionalFactorAt vols prices corr t = FVal.fin q ∧ 0 ≤ q := by
  unfold institutionalFactorAt volumeRatioAt
  cases hma : rollingMeanAt vols 20 t with
  | none => exact ⟨0, rfl, le_refl 0⟩
  | some m =>
    rw [rollingMeanAt] at hma
    by_cases hguard : t + 1 < 20 ∨ vols.length ≤ t
    · rw [if_pos hguard] at hma
      cases hma
    · rw [if_neg hguard] at hma
      have hm : m = (∑ i ∈ Finset.range 20, vols.getD (t - i) 0) / (20 : ℚ) :=
        (Option.some.injEq _ _ ▸ hma).symm
      have hterms : ∀ i ∈ Finset.range 20, 0 ≤ vols.getD (t - i) 0 :=
        fun i _ => getD_nonneg h _
      have hm0 : 0 ≤ m := by
        rw [hm]
        exact div_nonneg (Finset.sum_nonneg hterms) (by norm_num)
      by_cases hz : m = 0
      · have hdiv0 : (∑ i ∈ Finset.range 20, vols.getD (t - i) 0) / (20 : ℚ) = 0 := by
          rw [← hm]
          exact hz
        have hsum0 : ∑ i ∈ Finset.range 20, vols.getD (t - i) 0 = 0 := by
          rcases div_eq_zero_iff.mp hdiv0 with h0 | h0
          · exact h0
          · exact absurd h0 (by norm_num)
        have hst : vols.getD t 0 = 0 := by
          have := (Finset.sum_eq_zero_iff_of_nonneg hterms).mp hsum0 0 (by norm_num)
          simpa using this
        refine ⟨0, ?_, le_refl 0⟩
        have hst2 : seriesAt vols t = 0 := hst
        rw [hz, hst2]
        norm_num [fdivQ, fmulQ, fillna0]
      · have hv : 0 ≤ seriesAt vols t := getD_nonneg h t
        refine ⟨seriesAt vols t / m * |(corr t).getD 0|, ?_, ?_⟩
        · simp only [fdivQ, if_neg hz]
          rfl
        · exact mul_nonneg (div_nonneg hv hm0) (abs_nonneg _)

/-- C9: for every produced signal, `confidence_score` is the arithmetic mean
of the four components `[trendConfirmed, positiveVelocity, earlyImpulse,
min(institutionalFactor/2, 1)]`, and with non-negative input volumes it is a
finite value in the interval `[0, 1]`. -/
theorem confidence_score_mean_in_unit_interval (engine : PriceVolumeDerivativesEngine)
    (df : Frame) (corr : ℕ → Option ℚ) (now : ℤ) (sym : String)
    (h200 : 200 ≤ df.close.length) (hvol : ∀ v ∈ df.volume, 0 ≤ v) :
    ∃ sig q, generate_pdm_signals engine (some df) corr now sym = some sig ∧
      sig.confidence_score = confidence_score_val df corr ∧
      confidence_score_val df corr =
        fdivC (faddQ
          ((if trend_confirmation df then (1 : ℚ) else 0) +
            (if positive_velocity df then (1 : ℚ) else 0) +
            (if early_impulse df then (1 : ℚ) else 0))
          (fminC (fdivC (institutionalFactorAt df.volume df.close corr (lastIdx df)) 2) 1))
        4 ∧
      sig.confidence_score = FVal.fin q ∧ 0 ≤ q ∧ q ≤ 1 := by
  obtain ⟨q0, hq0, hq0n⟩ :=
    institutionalFactorAt_nonneg df.volume df.close corr (lastIdx df) hvol
  have hB : 0 ≤ ((if trend_confirmation df then (1 : ℚ) else 0) +
        (if positive_velocity df then (1 : ℚ) else 0) +
        (if early_impulse df then (1 : ℚ) else 0)) ∧
      ((if trend_confirmation df then (1 : ℚ) else 0) +
        (if positive_velocity df then (1 : ℚ) else 0) +
        (if early_impulse df then (1 : ℚ) else 0)) ≤ 3 := by
    constructor <;> split_ifs <;> norm_num
  have hmin : 0 ≤ min (q0 / 2) 1 ∧ min (q0 / 2) 1 ≤ 1 :=
    ⟨le_min (by positivity) (by norm_num), min_le_right _ _⟩
  have hconf : confidence_score_val df corr =
      FVal.fin ((((if trend_confirmation df then (1 : ℚ) else 0) +
          (if positive_velocity df then (1 : ℚ) else 0) +
          (if early_impulse df then (1 : ℚ) else 0)) + min (q0 / 2) 1) / 4) := by
    rw [confidence_score_val, hq0]
    norm_num [fdivC, fminC, faddQ]
  simp only [generate_pdm_signals]
  rw [if_neg (by omega)]
  refine ⟨_, _, rfl, rfl, rfl, hconf, ?_, ?_⟩
  · exact div_nonneg (by linarith [hB.1, hmin.1]) (by norm_num)
  · rw [div_le_one (by norm_num : (0 : ℚ) < 4)]
    linarith [hB.2, hmin.2]

theorem testFrame_volume_nonneg : ∀ v ∈ testFrame.volume, 0 ≤ v := by
  intro v hv
  have hv2 : v ∈ List.replicate 200 (1 : ℚ) := hv
  rw [List.eq_of_mem_replicate hv2]
  norm_num

/-- C9 witness: instantiation at the constant 200-bar frame, whose volumes
are all non-negative. -/
theorem confidence_score_mean_in_unit_interval_witness :
    (200 ≤ testFrame.close.length ∧ ∀ v ∈ testFrame.volume, 0 ≤ v) ∧
    (∃ sig q, generate_pdm_signals mkEngine (some testFrame) (fun _ => none) 0 "TEST" =
        some sig ∧
      sig.confidence_score = confidence_score_val testFrame (fun _ => none) ∧
      confidence_score_val testFrame (fun _ => none) =
        fdivC (faddQ
          ((if trend_confirmation testFrame then (1 : ℚ) else 0) +
            (if positive_velocity testFrame then (1 : ℚ) else 0) +
            (if early_impulse testFrame then (1 : ℚ) else 0))
          (fminC (fdivC (institutionalFactorAt testFrame.volume testFrame.close
            (fun _ => none) (lastIdx testFrame)) 2) 1))
        4 ∧
      sig.confidence_score = FVal.fin q ∧ 0 ≤ q ∧ q ≤ 1) :=
  ⟨⟨by norm_num [testFrame, constList], testFrame_volume_nonneg⟩,
    confidence_score_mean_in_unit_interval mkEngine testFrame (fun _ => none) 0 "TEST"
      (by norm_num [testFrame, constList]) testFrame_volume_nonneg⟩
